import Mathlib

/-!
Verification development for the LifeOS core (spec.md).

The repository ships the Next.js frontend and the design documents; the
Python backend modules they describe (agents/memory_agent.py, rag/manager.py,
ai_orchestrator.py, routers/plan.py) are not part of the staged sources, so
the definitions below embed those components as the spec and the in-repo
design documents describe them.  Confidence values are rationals (the spec
works in tenths), times are minutes from midnight, and timestamps are day
numbers.
-/

namespace LifeOS

/-- Memory tier of a UserMemory record: SHORT_TERM decays and can be pruned,
LONG_TERM is permanent. -/
inductive MemoryTier where
  | SHORT_TERM
  | LONG_TERM
deriving DecidableEq, Repr

/-- Modelled from the spec: the UserMemory document of models.py (not in the
staged sources).  `last_accessed` and `created_at` are day numbers. -/
structure UserMemory where
  id : Nat
  user_id : Nat
  text : String
  category : String
  confidence : ℚ
  tier : MemoryTier
  access_count : Nat
  last_accessed : Nat
  created_at : Nat
deriving DecidableEq, Repr

/-- Modelled from the spec: confidence decay, `decay(c, d) = max(0, c - 0.1 d)`
for `d` elapsed idle days. -/
def decay (c : ℚ) (d : Nat) : ℚ :=
  max 0 (c - d / 10)

/-- Modelled from the spec: the decay step applied to one record — a
SHORT_TERM record not accessed on the current day loses 0.1 confidence per
elapsed idle day, floored at 0; other records are untouched. -/
def decayRecord (today : Nat) (m : UserMemory) : UserMemory :=
  if m.tier = MemoryTier.SHORT_TERM ∧ m.last_accessed < today then
    { m with confidence := decay m.confidence (today - m.last_accessed) }
  else m

/-- Decay stage of `run_lifecycle`: decay every record for the current day. -/
def decayStage (today : Nat) (store : List UserMemory) : List UserMemory :=
  store.map (decayRecord today)

/-- Modelled from the spec: prune predicate — a SHORT_TERM record whose
confidence fell below 0.3 is deleted. -/
def shouldPrune (m : UserMemory) : Bool :=
  decide (m.tier = MemoryTier.SHORT_TERM) && decide (m.confidence < 3 / 10)

/-- Prune stage of `run_lifecycle`: delete the records `shouldPrune` marks. -/
def pruneStage (store : List UserMemory) : List UserMemory :=
  store.filter (fun m => !shouldPrune m)

/-- Modelled from the spec: promotion of one record — a SHORT_TERM record with
confidence ≥ 0.8 and access_count ≥ 3 moves to LONG_TERM; nothing else
changes. -/
def promoteRecord (m : UserMemory) : UserMemory :=
  if m.tier = MemoryTier.SHORT_TERM ∧ 4 / 5 ≤ m.confidence ∧ 3 ≤ m.access_count then
    { m with tier := MemoryTier.LONG_TERM }
  else m

/-- Promote stage of `run_lifecycle`. -/
def promoteStage (store : List UserMemory) : List UserMemory :=
  store.map promoteRecord

/-- Modelled from the spec: `run_lifecycle` runs decay, then prune, then
promote, in that fixed order, over one user's store. -/
def run_lifecycle (today : Nat) (store : List UserMemory) : List UserMemory :=
  promoteStage (pruneStage (decayStage today store))

/-- Split a character list into space-separated words; `acc` holds the reversed
characters of the word being read. -/
def splitWordsAux : List Char → List Char → List String
  | [], acc => if acc.isEmpty then [] else [String.mk acc.reverse]
  | c :: cs, acc =>
      if c = ' ' then
        (if acc.isEmpty then [] else [String.mk acc.reverse]) ++ splitWordsAux cs []
      else
        splitWordsAux cs (c :: acc)

/-- Words of a memory text, deduplicated. -/
def wordSet (t : String) : List String :=
  (splitWordsAux t.data []).dedup

/-- Count of the incoming fact's words that occur in the stored text. -/
def matchedWords (incoming stored : String) : Nat :=
  ((wordSet incoming).filter (fun w => decide (w ∈ wordSet stored))).length

/-- Modelled from the spec: word-overlap measure used by duplicate detection —
the fraction of the incoming fact's words that occur in the stored text. -/
def overlapFrac (incoming stored : String) : ℚ :=
  (matchedWords incoming stored : ℚ) / ((wordSet incoming).length : ℚ)

/-- Modelled from the spec: an incoming fact is a duplicate of a stored record
when the category matches and the word overlap is at least 80%; the comparison
matched/total ≥ 4/5 is taken over the integers. -/
def isDup (incoming cat : String) (m : UserMemory) : Bool :=
  decide (m.category = cat) &&
    decide (4 * (wordSet incoming).length ≤ 5 * matchedWords incoming m.text)

/-- Reinforce the first stored duplicate of the incoming fact: confidence is
reset to 1.0 and access_count incremented; every other record is unchanged. -/
def reinforceFirst (incoming cat : String) : List UserMemory → List UserMemory
  | [] => []
  | m :: rest =>
      if isDup incoming cat m then
        { m with confidence := 1, access_count := m.access_count + 1 } :: rest
      else
        m :: reinforceFirst incoming cat rest

/-- Modelled from the spec: ingestion of one extracted fact — a duplicate
reinforces the existing record (no new row); otherwise a fresh SHORT_TERM
record with confidence 1.0 and access_count 1 is appended. -/
def ingest (today uid : Nat) (incoming cat : String) (store : List UserMemory) :
    List UserMemory :=
  if store.any (isDup incoming cat) then
    reinforceFirst incoming cat store
  else
    store ++ [{ id := store.length, user_id := uid, text := incoming, category := cat,
                confidence := 1, tier := MemoryTier.SHORT_TERM, access_count := 1,
                last_accessed := today, created_at := today }]

/-- Submit the same fact `n` times into an initially empty store. -/
def ingestN (today uid : Nat) (incoming cat : String) : Nat → List UserMemory
  | 0 => []
  | n + 1 => ingest today uid incoming cat (ingestN today uid incoming cat n)

/-- A record is marked for pruning exactly when it is SHORT_TERM and its
confidence is below 0.3. -/
theorem shouldPrune_iff (m : UserMemory) :
    shouldPrune m = true ↔ m.tier = MemoryTier.SHORT_TERM ∧ m.confidence < 3 / 10 := by
  simp [shouldPrune]

/-- Reinforcement never adds or removes a row. -/
theorem reinforceFirst_length (incoming cat : String) (l : List UserMemory) :
    (reinforceFirst incoming cat l).length = l.length := by
  induction l with
  | nil => rfl
  | cons m rest ih =>
      by_cases h : isDup incoming cat m = true <;>
        simp [reinforceFirst, h, ih]

/-- Reinforcement never changes a record's tier. -/
theorem reinforceFirst_tier (incoming cat : String) (l : List UserMemory)
    (i : Nat) (h : i < l.length) (h' : i < (reinforceFirst incoming cat l).length) :
    ((reinforceFirst incoming cat l).get ⟨i, h'⟩).tier = (l.get ⟨i, h⟩).tier := by
  induction l generalizing i with
  | nil => cases h
  | cons m rest ih =>
      by_cases hd : isDup incoming cat m = true
      · cases i with
        | zero => simp [reinforceFirst, hd]
        | succ j => simp [reinforceFirst, hd]
      · cases i with
        | zero => simp [reinforceFirst, hd]
        | succ j =>
            have hj : j < rest.length := by
              simpa using h
            simpa [reinforceFirst, hd] using ih j hj (by
              simpa [reinforceFirst, hd, reinforceFirst_length] using h')

/-- Every word of the incoming fact matches itself. -/
theorem matchedWords_self (incoming : String) :
    matchedWords incoming incoming = (wordSet incoming).length := by
  unfold matchedWords
  congr 1
  refine List.filter_eq_self.mpr ?_
  intro a ha
  simpa using ha

/-- A fact is always a duplicate of a same-category record holding the very
same text. -/
theorem isDup_self (incoming cat : String) (m : UserMemory)
    (hc : m.category = cat) (ht : m.text = incoming) :
    isDup incoming cat m = true := by
  simp [isDup, hc, ht, matchedWords_self]
  omega

/-- Submitting one fact repeatedly keeps exactly one row, counting accesses. -/
theorem ingestN_singleton (today uid : Nat) (incoming cat : String) (n : Nat)
    (hn : 1 ≤ n) :
    ingestN today uid incoming cat n =
      [{ id := 0, user_id := uid, text := incoming, category := cat, confidence := 1,
         tier := MemoryTier.SHORT_TERM, access_count := n, last_accessed := today,
         created_at := today }] := by
  induction n with
  | zero => cases hn
  | succ k ih =>
      cases Nat.eq_zero_or_pos k with
      | inl h0 =>
          subst h0
          simp [ingestN, ingest]
      | inr hk =>
          have hdup : isDup incoming cat
              { id := 0, user_id := uid, text := incoming, category := cat, confidence := 1,
                tier := MemoryTier.SHORT_TERM, access_count := k, last_accessed := today,
                created_at := today } = true :=
            isDup_self incoming cat _ rfl rfl
          rw [ingestN, ih hk]
          simp [ingest, reinforceFirst, hdup]

/-- C3: decay(c, d) equals max(0, c − 0.1·d), is non-increasing in the idle
days d, and the decay stage of run_lifecycle applies exactly this decay to the
SHORT_TERM records not accessed on the current day, leaving every other record
untouched. -/
theorem decay_spec (c : ℚ) (d d' : Nat) (hd : d ≤ d') (today : Nat)
    (store : List UserMemory) :
    decay c d = max 0 (c - d / 10) ∧
    decay c d' ≤ decay c d ∧
    decayStage today store = store.map (fun m =>
      if m.tier = MemoryTier.SHORT_TERM ∧ m.last_accessed < today then
        { m with confidence := decay m.confidence (today - m.last_accessed) }
      else m) ∧
    run_lifecycle today store = promoteStage (pruneStage (decayStage today store)) := by
  refine ⟨rfl, ?_, rfl, rfl⟩
  unfold decay
  refine max_le_max le_rfl (sub_le_sub_left ?_ c)
  have hc : (d : ℚ) ≤ (d' : ℚ) := by exact_mod_cast hd
  exact (div_le_div_iff_of_pos_right (by norm_num)).mpr hc

/-- C3 witness at c = 1, d = 2, d' = 3, an empty store. -/
theorem decay_spec_witness :
    decay 1 2 = max 0 (1 - 2 / 10) ∧
    decay 1 3 ≤ decay 1 2 ∧
    decayStage 7 [] = List.map (fun m =>
      if m.tier = MemoryTier.SHORT_TERM ∧ m.last_accessed < 7 then
        { m with confidence := decay m.confidence (7 - m.last_accessed) }
      else m) [] ∧
    run_lifecycle 7 [] = promoteStage (pruneStage (decayStage 7 [])) :=
  decay_spec 1 2 3 (by norm_num) 7 []

/-- C4: run_lifecycle promotes exactly the SHORT_TERM records with confidence
≥ 0.8 and access_count ≥ 3; no lifecycle or reinforcement step ever moves a
record from LONG_TERM back to SHORT_TERM, and a LONG_TERM record passes
through decay, prune and promote completely unchanged. -/
theorem promote_spec (today : Nat) (store : List UserMemory) (m : UserMemory)
    (hm : m ∈ store) (hL : m.tier = MemoryTier.LONG_TERM) :
    (∀ x : UserMemory, (promoteRecord x).tier = MemoryTier.LONG_TERM ↔
        x.tier = MemoryTier.LONG_TERM ∨
          (x.tier = MemoryTier.SHORT_TERM ∧ 4 / 5 ≤ x.confidence ∧
            3 ≤ x.access_count)) ∧
    (∀ (t : Nat) (x : UserMemory), (decayRecord t x).tier = x.tier) ∧
    (∀ (inc cat : String) (l : List UserMemory) (i : Nat) (h : i < l.length)
        (h' : i < (reinforceFirst inc cat l).length),
        ((reinforceFirst inc cat l).get ⟨i, h'⟩).tier = (l.get ⟨i, h⟩).tier) ∧
    decayRecord today m = m ∧
    shouldPrune m = false ∧
    promoteRecord m = m ∧
    m ∈ run_lifecycle today store := by
  refine ⟨?_, ?_, reinforceFirst_tier, ?_, ?_, ?_, ?_⟩
  · intro x
    unfold promoteRecord
    split_ifs with h
    · simp only [if_pos h]
      constructor
      · intro _
        exact Or.inr h
      · intro _
        trivial
    · constructor
      · intro hx
        exact Or.inl hx
      · rintro (hx | hx)
        · exact hx
        · exact absurd hx h
  · intro t x
    unfold decayRecord
    split_ifs <;> rfl
  · simp [decayRecord, hL]
  · simp [shouldPrune, hL]
  · simp [promoteRecord, hL]
  · have h1 : m ∈ decayStage today store :=
      List.mem_map.mpr ⟨m, hm, by simp [decayRecord, hL]⟩
    have h2 : m ∈ pruneStage (decayStage today store) :=
      List.mem_filter.mpr ⟨h1, by simp [shouldPrune, hL]⟩
    exact List.mem_map.mpr ⟨m, h2, by simp [promoteRecord, hL]⟩

/-- C5: the prune step of run_lifecycle, applied after the decay step, deletes
exactly the SHORT_TERM records whose confidence fell below 0.3, and a
LONG_TERM record is never deleted regardless of its confidence. -/
theorem prune_spec (today : Nat) (store : List UserMemory) (m : UserMemory)
    (hmem : m ∈ decayStage today store) (hL : m.tier = MemoryTier.LONG_TERM) :
    (∀ x : UserMemory, x ∈ pruneStage (decayStage today store) ↔
        x ∈ decayStage today store ∧
          ¬(x.tier = MemoryTier.SHORT_TERM ∧ x.confidence < 3 / 10)) ∧
    run_lifecycle today store = promoteStage (pruneStage (decayStage today store)) ∧
    m ∈ pruneStage (decayStage today store) := by
  refine ⟨?_, rfl, ?_⟩
  · intro x
    constructor
    · intro hx
      have := List.mem_filter.mp hx
      refine ⟨this.1, ?_⟩
      intro hcon
      have : shouldPrune x = true := (shouldPrune_iff x).mpr hcon
      simp [this] at hx
      exact absurd (List.mem_filter.mp hx).2 (by simp [this])
    · intro ⟨hx, hnot⟩
      refine List.mem_filter.mpr ⟨hx, ?_⟩
      simp only [Bool.not_eq_true']
      by_contra h
      exact hnot ((shouldPrune_iff x).mp (by simpa using h))
  · exact List.mem_filter.mpr ⟨hmem, by simp [shouldPrune, hL]⟩

/-- C6: an incoming fact with ≥ 80% word overlap against a same-category
record reinforces that record (confidence reset to 1.0, access_count
incremented, no duplicate row), so submitting one identical fact N ≥ 1 times
into an empty store leaves exactly one record with confidence 1.0 and
access_count N. -/
theorem reinforcement_spec (today uid : Nat) (incoming cat : String)
    (store : List UserMemory) (n : Nat) (hn : 1 ≤ n) :
    (store.any (isDup incoming cat) = true →
        ingest today uid incoming cat store = reinforceFirst incoming cat store) ∧
    (reinforceFirst incoming cat store).length = store.length ∧
    (∀ m : UserMemory, wordSet incoming ≠ [] → m.category = cat →
        (isDup incoming cat m = true ↔ 4 / 5 ≤ overlapFrac incoming m.text)) ∧
    ingestN today uid incoming cat n =
      [{ id := 0, user_id := uid, text := incoming, category := cat, confidence := 1,
         tier := MemoryTier.SHORT_TERM, access_count := n, last_accessed := today,
         created_at := today }] := by
  refine ⟨?_, reinforceFirst_length incoming cat store, ?_,
    ingestN_singleton today uid incoming cat n hn⟩
  · intro hany
    simp [ingest, hany]
  · intro m hw hc
    have hpos : 0 < (wordSet incoming).length := List.length_pos.mpr hw
    have hposq : (0 : ℚ) < ((wordSet incoming).length : ℚ) := by exact_mod_cast hpos
    simp only [isDup, hc, decide_True, Bool.true_and, decide_eq_true_eq]
    unfold overlapFrac
    rw [div_le_div_iff₀ (by norm_num) hposq]
    constructor
    · intro h
      have h' : ((4 * (wordSet incoming).length : Nat) : ℚ) ≤
          ((5 * matchedWords incoming m.text : Nat) : ℚ) := by exact_mod_cast h
      push_cast at h'
      linarith
    · intro h
      have h' : ((4 * (wordSet incoming).length : Nat) : ℚ) ≤
          ((5 * matchedWords incoming m.text : Nat) : ℚ) := by
        push_cast
        linarith
      exact_mod_cast h'

/-- C4 witness: a LONG_TERM record with confidence 1 passes a lifecycle run on
day 3 untouched. -/
theorem promote_spec_witness :
    (∀ x : UserMemory, (promoteRecord x).tier = MemoryTier.LONG_TERM ↔
        x.tier = MemoryTier.LONG_TERM ∨
          (x.tier = MemoryTier.SHORT_TERM ∧ 4 / 5 ≤ x.confidence ∧
            3 ≤ x.access_count)) ∧
    (∀ (t : Nat) (x : UserMemory), (decayRecord t x).tier = x.tier) ∧
    (∀ (inc cat : String) (l : List UserMemory) (i : Nat) (h : i < l.length)
        (h' : i < (reinforceFirst inc cat l).length),
        ((reinforceFirst inc cat l).get ⟨i, h'⟩).tier = (l.get ⟨i, h⟩).tier) ∧
    decayRecord 3
      { id := 0, user_id := 1, text := "rule", category := "life", confidence := 1,
        tier := MemoryTier.LONG_TERM, access_count := 4, last_accessed := 0,
        created_at := 0 } =
      { id := 0, user_id := 1, text := "rule", category := "life", confidence := 1,
        tier := MemoryTier.LONG_TERM, access_count := 4, last_accessed := 0,
        created_at := 0 } ∧
    shouldPrune
      { id := 0, user_id := 1, text := "rule", category := "life", confidence := 1,
        tier := MemoryTier.LONG_TERM, access_count := 4, last_accessed := 0,
        created_at := 0 } = false ∧
    promoteRecord
      { id := 0, user_id := 1, text := "rule", category := "life", confidence := 1,
        tier := MemoryTier.LONG_TERM, access_count := 4, last_accessed := 0,
        created_at := 0 } =
      { id := 0, user_id := 1, text := "rule", category := "life", confidence := 1,
        tier := MemoryTier.LONG_TERM, access_count := 4, last_accessed := 0,
        created_at := 0 } ∧
    { id := 0, user_id := 1, text := "rule", category := "life", confidence := 1,
      tier := MemoryTier.LONG_TERM, access_count := 4, last_accessed := 0,
      created_at := 0 } ∈ run_lifecycle 3
      [{ id := 0, user_id := 1, text := "rule", category := "life", confidence := 1,
         tier := MemoryTier.LONG_TERM, access_count := 4, last_accessed := 0,
         created_at := 0 }] :=
  promote_spec 3 _ _ (by decide) (by decide)

/-- C5 witness: pruning on day 3 over a one-record store holding a LONG_TERM
record of confidence 1. -/
theorem prune_spec_witness :
    (∀ x : UserMemory, x ∈ pruneStage (decayStage 3
        [{ id := 0, user_id := 1, text := "rule", category := "life", confidence := 1,
           tier := MemoryTier.LONG_TERM, access_count := 4, last_accessed := 0,
           created_at := 0 }]) ↔
        x ∈ decayStage 3
          [{ id := 0, user_id := 1, text := "rule", category := "life", confidence := 1,
             tier := MemoryTier.LONG_TERM, access_count := 4, last_accessed := 0,
             created_at := 0 }] ∧
          ¬(x.tier = MemoryTier.SHORT_TERM ∧ x.confidence < 3 / 10)) ∧
    run_lifecycle 3
      [{ id := 0, user_id := 1, text := "rule", category := "life", confidence := 1,
         tier := MemoryTier.LONG_TERM, access_count := 4, last_accessed := 0,
         created_at := 0 }] =
      promoteStage (pruneStage (decayStage 3
        [{ id := 0, user_id := 1, text := "rule", category := "life", confidence := 1,
           tier := MemoryTier.LONG_TERM, access_count := 4, last_accessed := 0,
           created_at := 0 }])) ∧
    { id := 0, user_id := 1, text := "rule", category := "life", confidence := 1,
      tier := MemoryTier.LONG_TERM, access_count := 4, last_accessed := 0,
      created_at := 0 } ∈ pruneStage (decayStage 3
      [{ id := 0, user_id := 1, text := "rule", category := "life", confidence := 1,
         tier := MemoryTier.LONG_TERM, access_count := 4, last_accessed := 0,
         created_at := 0 }]) :=
  prune_spec 3 _ _ (by decide) (by decide)

/-- C6 witness: the fact "I am vegetarian" submitted twice on day 5. -/
theorem reinforcement_spec_witness :
    (List.any [] (isDup "I am vegetarian" "diet") = true →
        ingest 5 1 "I am vegetarian" "diet" [] =
          reinforceFirst "I am vegetarian" "diet" []) ∧
    (reinforceFirst "I am vegetarian" "diet" []).length = List.length ([] : List UserMemory) ∧
    (∀ m : UserMemory, wordSet "I am vegetarian" ≠ [] → m.category = "diet" →
        (isDup "I am vegetarian" "diet" m = true ↔
          4 / 5 ≤ overlapFrac "I am vegetarian" m.text)) ∧
    ingestN 5 1 "I am vegetarian" "diet" 2 =
      [{ id := 0, user_id := 1, text := "I am vegetarian", category := "diet",
         confidence := 1, tier := MemoryTier.SHORT_TERM, access_count := 2,
         last_accessed := 5, created_at := 5 }] :=
  reinforcement_spec 5 1 "I am vegetarian" "diet" [] 2 (by decide)

/-- Modelled from the spec: the RetrievalResult of rag/manager.py — score is
the normalized relevance, rank the 1-based position, raw_distance the L2
distance the index returned. -/
structure RetrievalResult where
  text : String
  score : ℚ
  rank : Nat
  raw_distance : ℚ
deriving DecidableEq, Repr

/-- Drop entries whose text was already seen: `seen` collects the texts kept
so far, each kept entry is the first with its text. -/
def dedupByText (seen : List String) : List (String × ℚ) → List (String × ℚ)
  | [] => []
  | p :: rest =>
      if p.1 ∈ seen then dedupByText seen rest
      else p :: dedupByText (p.1 :: seen) rest

/-- Attach scores and 1-based ranks to deduplicated (text, distance) pairs,
starting at rank `r`. -/
def withRanks (r : Nat) : List (String × ℚ) → List RetrievalResult
  | [] => []
  | p :: rest => ⟨p.1, 1 / (1 + p.2), r, p.2⟩ :: withRanks (r + 1) rest

/-- Modelled from the spec: `query` over a corpus whose entries carry their L2
distance to the embedded query — take the k nearest neighbours, deduplicate
identical text chunks, and return scored, ranked results. -/
def query (corpus : List (String × ℚ)) (k : Nat) : List RetrievalResult :=
  withRanks 1 (dedupByText [] ((List.insertionSort (fun a b => a.2 ≤ b.2) corpus).take k))

/-- Every entry the deduplication keeps comes from its input. -/
theorem dedupByText_subset (seen : List String) (l : List (String × ℚ))
    (q : String × ℚ) (hq : q ∈ dedupByText seen l) : q ∈ l := by
  induction l generalizing seen with
  | nil => cases hq
  | cons p rest ih =>
      by_cases hp : p.1 ∈ seen
      · simp only [dedupByText, if_pos hp] at hq
        exact List.mem_cons_of_mem p (ih _ hq)
      · simp only [dedupByText, if_neg hp] at hq
        rcases List.mem_cons.mp hq with hq | hq
        · simp [hq]
        · exact List.mem_cons_of_mem p (ih _ hq)

/-- Deduplication never lengthens the list. -/
theorem dedupByText_length (seen : List String) (l : List (String × ℚ)) :
    (dedupByText seen l).length ≤ l.length := by
  induction l generalizing seen with
  | nil => simp [dedupByText]
  | cons p rest ih =>
      by_cases hp : p.1 ∈ seen
      · simp only [dedupByText, if_pos hp]
        exact Nat.le_succ_of_le (ih _)
      · simp only [dedupByText, if_neg hp, List.length_cons]
        exact Nat.succ_le_succ (ih _)

/-- Nothing the deduplication keeps has a text it was told is already seen. -/
theorem dedupByText_not_seen (seen : List String) (l : List (String × ℚ))
    (q : String × ℚ) (hq : q ∈ dedupByText seen l) : q.1 ∉ seen := by
  induction l generalizing seen with
  | nil => cases hq
  | cons p rest ih =>
      by_cases hp : p.1 ∈ seen
      · simp only [dedupByText, if_pos hp] at hq
        exact ih _ hq
      · simp only [dedupByText, if_neg hp] at hq
        rcases List.mem_cons.mp hq with hq | hq
        · rw [hq]
          exact hp
        · intro hmem
          exact ih _ hq (List.mem_cons_of_mem _ hmem)

/-- Texts kept by the deduplication are pairwise distinct. -/
theorem dedupByText_pairwise (seen : List String) (l : List (String × ℚ)) :
    (dedupByText seen l).Pairwise (fun a b => a.1 ≠ b.1) := by
  induction l generalizing seen with
  | nil => simp [dedupByText]
  | cons p rest ih =>
      by_cases hp : p.1 ∈ seen
      · simpa only [dedupByText, if_pos hp] using ih seen
      · simp only [dedupByText, if_neg hp]
        refine List.Pairwise.cons ?_ (ih _)
        intro q hq heq
        exact dedupByText_not_seen _ _ q hq (by simp [heq])

/-- Ranked results keep the texts of their input, in order. -/
theorem withRanks_texts (r : Nat) (l : List (String × ℚ)) :
    (withRanks r l).map RetrievalResult.text = l.map Prod.fst := by
  induction l generalizing r with
  | nil => rfl
  | cons p rest ih => simp [withRanks, ih]

/-- Ranked results are as many as their input entries. -/
theorem withRanks_length (r : Nat) (l : List (String × ℚ)) :
    (withRanks r l).length = l.length := by
  induction l generalizing r with
  | nil => rfl
  | cons p rest ih => simp [withRanks, ih]

/-- Every ranked result carries the score and the distance of one input
entry. -/
theorem withRanks_mem (r : Nat) (l : List (String × ℚ)) (x : RetrievalResult)
    (hx : x ∈ withRanks r l) :
    ∃ p ∈ l, x.text = p.1 ∧ x.raw_distance = p.2 ∧ x.score = 1 / (1 + p.2) := by
  induction l generalizing r with
  | nil => cases hx
  | cons p rest ih =>
      rcases List.mem_cons.mp hx with hx | hx
      · exact ⟨p, by simp [hx]⟩
      · obtain ⟨q, hq, h⟩ := ih (r + 1) hx
        exact ⟨q, List.mem_cons_of_mem _ hq, h⟩

/-- Ranks count up from the start of the result list. -/
theorem withRanks_rank (r : Nat) (l : List (String × ℚ)) (i : Nat)
    (h : i < (withRanks r l).length) :
    ((withRanks r l).get ⟨i, h⟩).rank = r + i := by
  induction l generalizing r i with
  | nil => cases h
  | cons p rest ih =>
      cases i with
      | zero => rfl
      | succ j =>
          have hj : j < (withRanks (r + 1) rest).length := by
            simpa [withRanks] using h
          have := ih (r + 1) j hj
          simpa [withRanks, Nat.add_assoc, Nat.add_comm 1 j] using this

/-- C7: for every query corpus (entries carrying nonnegative L2 distances to
the query) and every k, query returns at most k results, no two of which have
identical text, and every result carries score = 1 / (1 + L2_distance), a
value in (0, 1], together with its 1-based rank and its raw distance. -/
theorem query_spec (corpus : List (String × ℚ)) (k : Nat)
    (hd : ∀ p ∈ corpus, 0 ≤ p.2) :
    (query corpus k).length ≤ k ∧
    (query corpus k).Pairwise (fun a b => a.text ≠ b.text) ∧
    (∀ r ∈ query corpus k,
        r.score = 1 / (1 + r.raw_distance) ∧ 0 < r.score ∧ r.score ≤ 1) ∧
    ∀ i (h : i < (query corpus k).length),
      ((query corpus k).get ⟨i, h⟩).rank = i + 1 := by
  refine ⟨?_, ?_, ?_, ?_⟩
  · unfold query
    rw [withRanks_length]
    calc (dedupByText []
          ((List.insertionSort (fun a b => a.2 ≤ b.2) corpus).take k)).length
        ≤ ((List.insertionSort (fun a b => a.2 ≤ b.2) corpus).take k).length :=
          dedupByText_length _ _
      _ ≤ k := by
          rw [List.length_take]
          exact Nat.min_le_left _ _
  · unfold query
    refine List.pairwise_map.mp ?_
    rw [withRanks_texts]
    exact List.pairwise_map.mpr (dedupByText_pairwise _ _)
  · intro r hr
    obtain ⟨p, hp, ht, hdist, hscore⟩ := withRanks_mem 1 _ r hr
    have hp1 : p ∈ (List.insertionSort (fun a b => a.2 ≤ b.2) corpus).take k :=
      dedupByText_subset _ _ p hp
    have hp2 : p ∈ List.insertionSort (fun a b => a.2 ≤ b.2) corpus :=
      List.mem_of_mem_take hp1
    have hp3 : p ∈ corpus := (List.perm_insertionSort _ corpus).mem_iff.mp hp2
    have hpos : (0 : ℚ) < 1 + p.2 := by linarith [hd p hp3]
    refine ⟨by rw [hscore, hdist], ?_, ?_⟩
    · rw [hscore]
      exact div_pos one_pos hpos
    · rw [hscore]
      rw [div_le_one hpos]
      linarith [hd p hp3]
  · intro i h
    have h' : i < (withRanks 1 (dedupByText []
        ((List.insertionSort (fun a b => a.2 ≤ b.2) corpus).take k))).length := h
    have := withRanks_rank 1 _ i h'
    calc ((query corpus k).get ⟨i, h⟩).rank = 1 + i := this
      _ = i + 1 := Nat.add_comm 1 i

/-- C7 witness: a three-entry corpus with a repeated text, k = 3. -/
theorem query_spec_witness :
    (query [("a", 1), ("b", 2), ("a", 3)] 3).length ≤ 3 ∧
    (query [("a", 1), ("b", 2), ("a", 3)] 3).Pairwise (fun a b => a.text ≠ b.text) ∧
    (∀ r ∈ query [("a", 1), ("b", 2), ("a", 3)] 3,
        r.score = 1 / (1 + r.raw_distance) ∧ 0 < r.score ∧ r.score ≤ 1) ∧
    ∀ i (h : i < (query [("a", 1), ("b", 2), ("a", 3)] 3).length),
      ((query [("a", 1), ("b", 2), ("a", 3)] 3).get ⟨i, h⟩).rank = i + 1 :=
  query_spec [("a", 1), ("b", 2), ("a", 3)] 3 (by norm_num)

/-- Modelled from the spec: the process-wide VectorIndexState of the RAG
manager — the persisted corpus (data.json) beside the entries loaded in the
vector index. -/
structure VectorIndexState where
  corpus : List String
  index : List String
  embedding_dim : Nat
  loaded : Bool
deriving DecidableEq, Repr

/-- Entries in the persisted corpus. -/
def source_entries (s : VectorIndexState) : Nat :=
  s.corpus.length

/-- Entries in the loaded index. -/
def indexed_entries (s : VectorIndexState) : Nat :=
  s.index.length

/-- Modelled from the spec: staleness — the persisted corpus outgrew the
loaded index. -/
def index_stale (s : VectorIndexState) : Bool :=
  decide (indexed_entries s < source_entries s)

/-- Modelled from the spec: a full rebuild re-embeds the whole corpus into a
replacement index. -/
def rebuildIndex (s : VectorIndexState) : VectorIndexState :=
  { s with index := s.corpus, loaded := true }

/-- Modelled from the spec: every access first runs the staleness check and,
when the index is stale, a synchronous full rebuild before serving. -/
def accessIndex (s : VectorIndexState) : VectorIndexState :=
  if index_stale s then rebuildIndex s else s

/-- Modelled from the spec: the read-only health diagnostic. -/
def health_check (s : VectorIndexState) : Bool × Nat × Nat × Bool × Nat :=
  (s.loaded, indexed_entries s, source_entries s, index_stale s, s.embedding_dim)

/-- C8: when the persisted corpus has more entries than the loaded index, the
next access rebuilds the index from the whole corpus before serving, after
which indexed_entries equals source_entries; an access never ends in a stale
state, so two consecutive accesses never both observe a stale index, and a
second access changes nothing. -/
theorem staleness_spec (s : VectorIndexState)
    (hs : indexed_entries s < source_entries s) :
    (accessIndex s).index = s.corpus ∧
    indexed_entries (accessIndex s) = source_entries (accessIndex s) ∧
    (accessIndex s).corpus = s.corpus ∧
    (∀ t : VectorIndexState, index_stale (accessIndex t) = false) ∧
    (∀ t : VectorIndexState, accessIndex (accessIndex t) = accessIndex t) := by
  have hstale : index_stale s = true := by
    simpa [index_stale] using hs
  have haux : ∀ t : VectorIndexState, index_stale (accessIndex t) = false := by
    intro t
    by_cases ht : index_stale t = true
    · rw [accessIndex, if_pos ht]
      simp [index_stale, rebuildIndex, indexed_entries, source_entries]
    · rw [accessIndex, if_neg (by simpa using ht)]
      simpa using ht
  refine ⟨?_, ?_, ?_, haux, ?_⟩
  · rw [accessIndex, if_pos hstale]
    rfl
  · rw [accessIndex, if_pos hstale]
    simp [rebuildIndex, indexed_entries, source_entries]
  · rw [accessIndex, if_pos hstale]
    rfl
  · intro t
    have h2 := haux t
    conv_lhs => rw [accessIndex]
    rw [if_neg (by simp [h2])]

/-- C8 witness: a two-entry corpus against a one-entry index. -/
theorem staleness_spec_witness :
    (accessIndex ⟨["a", "b"], ["a"], 768, true⟩).index = ["a", "b"] ∧
    indexed_entries (accessIndex ⟨["a", "b"], ["a"], 768, true⟩) =
      source_entries (accessIndex ⟨["a", "b"], ["a"], 768, true⟩) ∧
    (accessIndex ⟨["a", "b"], ["a"], 768, true⟩).corpus = ["a", "b"] ∧
    (∀ t : VectorIndexState, index_stale (accessIndex t) = false) ∧
    (∀ t : VectorIndexState, accessIndex (accessIndex t) = accessIndex t) :=
  staleness_spec ⟨["a", "b"], ["a"], 768, true⟩ (by decide)

/-- Modelled from the spec: one task of a plan; times are minutes from
midnight. -/
structure PlanTask where
  title : String
  category : String
  start_time : Nat
  end_time : Nat
  priority : Nat
deriving DecidableEq, Repr

/-- Modelled from the spec: the profile fields the fallback plan consumes. -/
structure Profile where
  wake : Nat
  work_start : Nat
  work_end : Nat
  sleep_time : Nat
deriving DecidableEq, Repr

/-- Modelled from the spec: the deterministic fallback schedule synthesized
purely from wake/work/sleep times — Morning Routine, Work Block, Lunch,
Afternoon Work Block, Evening Wind-down.  Lunch sits at the fixed 12:00–13:00
slot splitting the work day. -/
def fallbackTasks (p : Profile) : List PlanTask :=
  [{ title := "Morning Routine", category := "personal", start_time := p.wake,
     end_time := p.work_start, priority := 2 },
   { title := "Work Block", category := "work", start_time := p.work_start,
     end_time := 720, priority := 3 },
   { title := "Lunch", category := "health", start_time := 720,
     end_time := 780, priority := 2 },
   { title := "Afternoon Work Block", category := "work", start_time := 780,
     end_time := p.work_end, priority := 3 },
   { title := "Evening Wind-down", category := "personal", start_time := p.work_end,
     end_time := p.sleep_time, priority := 1 }]

/-- A plan draft: its tasks and its summary. -/
structure PlanDraft where
  tasks : List PlanTask
  summary : String
deriving DecidableEq, Repr

/-- Modelled from the spec: the complete fallback draft. -/
def fallbackPlan (p : Profile) : PlanDraft :=
  { tasks := fallbackTasks p,
    summary := "Deterministic fallback plan built from profile wake, work and sleep times" }

/-- Outcome of one generation-backend attempt: a timeout, unrecoverably
malformed output, or a decoded draft (possibly with zero tasks). -/
inductive GenOutcome where
  | timeout
  | malformed
  | ok (tasks : List PlanTask) (summary : String)
deriving DecidableEq, Repr

/-- An attempt fails when it timed out, was malformed, or returned zero
tasks. -/
def failingOutcome : GenOutcome → Bool
  | GenOutcome.timeout => true
  | GenOutcome.malformed => true
  | GenOutcome.ok tasks _ => tasks.isEmpty

/-- A usable draft from one attempt, when there is one. -/
def outcomeSuccess : GenOutcome → Option PlanDraft
  | GenOutcome.timeout => none
  | GenOutcome.malformed => none
  | GenOutcome.ok tasks s => if tasks.isEmpty then none else some ⟨tasks, s⟩

/-- First usable draft among the attempts. -/
def firstSuccess : List GenOutcome → Option PlanDraft
  | [] => none
  | o :: rest =>
      match outcomeSuccess o with
      | some d => some d
      | none => firstSuccess rest

/-- Modelled from the spec: generate_plan — an initial attempt plus up to two
retries; if no attempt yields a non-empty decoded draft, the deterministic
fallback plan is returned, never an error. -/
def generate_plan (p : Profile) (attempts : List GenOutcome) : PlanDraft :=
  match firstSuccess (attempts.take 3) with
  | some d => d
  | none => fallbackPlan p

/-- A profile whose wake, work and sleep times are ordered around the fixed
12:00–13:00 lunch slot. -/
def WellFormedProfile (p : Profile) : Prop :=
  p.wake ≤ p.work_start ∧ p.work_start ≤ 720 ∧ 780 ≤ p.work_end ∧
    p.work_end ≤ p.sleep_time

/-- When every attempt fails, no usable draft is found. -/
theorem firstSuccess_none (l : List GenOutcome)
    (h : ∀ o ∈ l, failingOutcome o = true) : firstSuccess l = none := by
  induction l with
  | nil => rfl
  | cons o rest ih =>
      have ho : outcomeSuccess o = none := by
        cases o with
        | timeout => rfl
        | malformed => rfl
        | ok tasks s =>
            have := h _ (List.mem_cons_self _ _)
            simp [failingOutcome] at this
            simp [outcomeSuccess, this]
      simp only [firstSuccess, ho]
      exact ih fun o ho => h o (List.mem_cons_of_mem _ ho)

/-- C1: if every generation attempt fails (timeout, unrecoverable malformed
output, or zero tasks returned), generate_plan returns the deterministic
fallback draft built purely from the profile wake/work/sleep times: five
tasks in the fixed sequence Morning Routine, Work Block, Lunch, Afternoon
Work Block, Evening Wind-down, pairwise non-overlapping, each well formed,
with a non-empty summary — the failure is absorbed, never surfaced. -/
theorem generate_plan_fallback (p : Profile) (attempts : List GenOutcome)
    (hp : WellFormedProfile p)
    (hfail : ∀ o ∈ attempts, failingOutcome o = true) :
    generate_plan p attempts = fallbackPlan p ∧
    5 ≤ (fallbackPlan p).tasks.length ∧
    (fallbackPlan p).tasks.map PlanTask.title =
      ["Morning Routine", "Work Block", "Lunch", "Afternoon Work Block",
       "Evening Wind-down"] ∧
    (fallbackPlan p).tasks.Pairwise (fun a b => a.end_time ≤ b.start_time) ∧
    (∀ t ∈ (fallbackPlan p).tasks, t.start_time ≤ t.end_time) ∧
    (fallbackPlan p).summary ≠ "" := by
  obtain ⟨h1, h2, h3, h4⟩ := hp
  have hnone : firstSuccess (attempts.take 3) = none :=
    firstSuccess_none _ fun o ho => hfail o (List.mem_of_mem_take ho)
  refine ⟨?_, ?_, ?_, ?_, ?_, ?_⟩
  · simp [generate_plan, hnone]
  · simp [fallbackPlan, fallbackTasks]
  · simp [fallbackPlan, fallbackTasks]
  · simp only [fallbackPlan, fallbackTasks]
    simp [List.pairwise_cons]
    omega
  · intro t ht
    simp only [fallbackPlan, fallbackTasks, List.mem_cons, List.not_mem_nil,
      or_false] at ht
    rcases ht with ht | ht | ht | ht | ht <;> subst ht <;> simp <;> omega
  · simp [fallbackPlan]

/-- C1 witness: the spec profile (wake 07:00, work 09:00–18:00, sleep 23:00)
with two generation timeouts. -/
theorem generate_plan_fallback_witness :
    generate_plan ⟨420, 540, 1080, 1380⟩ [GenOutcome.timeout, GenOutcome.timeout] =
      fallbackPlan ⟨420, 540, 1080, 1380⟩ ∧
    5 ≤ (fallbackPlan ⟨420, 540, 1080, 1380⟩).tasks.length ∧
    (fallbackPlan ⟨420, 540, 1080, 1380⟩).tasks.map PlanTask.title =
      ["Morning Routine", "Work Block", "Lunch", "Afternoon Work Block",
       "Evening Wind-down"] ∧
    (fallbackPlan ⟨420, 540, 1080, 1380⟩).tasks.Pairwise
      (fun a b => a.end_time ≤ b.start_time) ∧
    (∀ t ∈ (fallbackPlan ⟨420, 540, 1080, 1380⟩).tasks,
        t.start_time ≤ t.end_time) ∧
    (fallbackPlan ⟨420, 540, 1080, 1380⟩).summary ≠ "" :=
  generate_plan_fallback ⟨420, 540, 1080, 1380⟩ [GenOutcome.timeout, GenOutcome.timeout]
    (by constructor <;> norm_num) (by decide)

/-- Status of a persisted plan. -/
inductive PlanStatus where
  | draft
  | approved
  | rejected
deriving DecidableEq, Repr

/-- Modelled from the spec: the Plan document fields the approve/reject
endpoints touch — `version` is the optimistic-concurrency token. -/
structure PlanRecord where
  id : Nat
  status : PlanStatus
  version : Nat
  summary : String
deriving DecidableEq, Repr

/-- Result code of an approve/reject call. -/
inductive OpResult where
  | success
  | conflict
deriving DecidableEq, Repr

/-- Modelled from the spec: approve_plan of routers/plan.py — the caller's
version must equal the stored version; on a match the plan is approved and the
version incremented, on a mismatch a conflict is returned and the plan is left
unchanged. -/
def approve (p : PlanRecord) (version : Nat) : PlanRecord × OpResult :=
  if version = p.version then
    ({ p with status := PlanStatus.approved, version := p.version + 1 },
      OpResult.success)
  else
    (p, OpResult.conflict)

/-- Modelled from the spec: reject_plan — same optimistic-concurrency check as
approve, marking the plan rejected. -/
def reject (p : PlanRecord) (version : Nat) : PlanRecord × OpResult :=
  if version = p.version then
    ({ p with status := PlanStatus.rejected, version := p.version + 1 },
      OpResult.success)
  else
    (p, OpResult.conflict)

/-- C2: approve and reject succeed exactly when the caller's version equals
the stored version, incrementing it by one; a mismatch returns a conflict
with the plan completely unchanged, so of two approve calls made with
version 1 against a version-1 plan, the first succeeds (version becomes 2)
and the second receives a conflict that mutates nothing. -/
theorem occ_spec (p : PlanRecord) (hv : p.version = 1) :
    (∀ (q : PlanRecord) (w : Nat), w = q.version →
        approve q w = ({ q with
            status := PlanStatus.approved, version := q.version + 1 },
          OpResult.success) ∧
        reject q w = ({ q with
            status := PlanStatus.rejected, version := q.version + 1 },
          OpResult.success)) ∧
    (∀ (q : PlanRecord) (w : Nat), w ≠ q.version →
        approve q w = (q, OpResult.conflict) ∧
        reject q w = (q, OpResult.conflict)) ∧
    (approve p 1).2 = OpResult.success ∧
    (approve p 1).1.version = 2 ∧
    approve (approve p 1).1 1 = ((approve p 1).1, OpResult.conflict) := by
  have hmatch : ∀ (q : PlanRecord) (w : Nat), w = q.version →
      approve q w = ({ q with
          status := PlanStatus.approved, version := q.version + 1 },
        OpResult.success) ∧
      reject q w = ({ q with
          status := PlanStatus.rejected, version := q.version + 1 },
        OpResult.success) := by
    intro q w hw
    rw [approve, if_pos hw, reject, if_pos hw]
    exact ⟨rfl, rfl⟩
  have hfirst : approve p 1 = ({ p with
      status := PlanStatus.approved, version := p.version + 1 },
    OpResult.success) :=
    (hmatch p 1 hv.symm).1
  refine ⟨hmatch, ?_, ?_, ?_, ?_⟩
  · intro q w hw
    rw [approve, if_neg hw, reject, if_neg hw]
    exact ⟨rfl, rfl⟩
  · rw [hfirst]
  · rw [hfirst]
    simp [hv]
  · rw [hfirst]
    rw [approve, if_neg (by simp [hv])]

/-- C2 witness: a draft plan stored at version 1, approved twice with
version 1. -/
theorem occ_spec_witness :
    (∀ (q : PlanRecord) (w : Nat), w = q.version →
        approve q w = ({ q with
            status := PlanStatus.approved, version := q.version + 1 },
          OpResult.success) ∧
        reject q w = ({ q with
            status := PlanStatus.rejected, version := q.version + 1 },
          OpResult.success)) ∧
    (∀ (q : PlanRecord) (w : Nat), w ≠ q.version →
        approve q w = (q, OpResult.conflict) ∧
        reject q w = (q, OpResult.conflict)) ∧
    (approve ⟨7, PlanStatus.draft, 1, "daily plan"⟩ 1).2 = OpResult.success ∧
    (approve ⟨7, PlanStatus.draft, 1, "daily plan"⟩ 1).1.version = 2 ∧
    approve (approve ⟨7, PlanStatus.draft, 1, "daily plan"⟩ 1).1 1 =
      ((approve ⟨7, PlanStatus.draft, 1, "daily plan"⟩ 1).1, OpResult.conflict) :=
  occ_spec ⟨7, PlanStatus.draft, 1, "daily plan"⟩ rfl

/-- Two tasks' time windows intersect. -/
def windowsIntersect (a b : PlanTask) : Prop :=
  a.start_time < b.end_time ∧ b.start_time < a.end_time

/-- Modelled from the spec: overlap resolution for one pair — when the windows
intersect, the lower-priority task's start time is shifted to the end time of
the higher-priority task (ties keep the first task in place). -/
def resolvePair (a b : PlanTask) : PlanTask × PlanTask :=
  if a.start_time < b.end_time ∧ b.start_time < a.end_time then
    if b.priority ≤ a.priority then
      (a, { b with start_time := a.end_time })
    else
      ({ a with start_time := b.end_time }, b)
  else
    (a, b)

/-- Sweep the overlap resolution across the task list, pair by pair. -/
def sweepTasks : PlanTask → List PlanTask → List PlanTask
  | a, [] => [a]
  | a, b :: rest =>
      (resolvePair a b).1 :: sweepTasks (resolvePair a b).2 rest

/-- Modelled from the spec: fix_overlaps — the self-healing overlap pass. -/
def fix_overlaps : List PlanTask → List PlanTask
  | [] => []
  | a :: rest => sweepTasks a rest

/-- Day-part bucket of a start time: morning before 12:00, afternoon until
17:59, evening from 18:00. -/
def dayPart (t : Nat) : String :=
  if t < 720 then "Morning" else if t < 1080 then "Afternoon" else "Evening"

/-- Modelled from the spec: label correction — a day-part word in the title is
rewritten to the bucket of the task's actual start time. -/
def correct_label (t : PlanTask) : PlanTask :=
  { t with title := ((t.title.replace "Morning" (dayPart t.start_time)).replace
      "Afternoon" (dayPart t.start_time)).replace "Evening" (dayPart t.start_time) }

/-- Label-correction pass over the whole list. -/
def correct_labels (ts : List PlanTask) : List PlanTask :=
  ts.map correct_label

/-- Gap threshold (minutes) beyond which a filler block is inserted. -/
def gapThreshold : Nat := 60

/-- Modelled from the spec: gap filling — a schedule gap beyond the threshold
is filled with a generic routine block. -/
def fill_gaps : List PlanTask → List PlanTask
  | [] => []
  | [a] => [a]
  | a :: b :: rest =>
      if a.end_time + gapThreshold < b.start_time then
        a :: { title := "Routine Block", category := "personal",
               start_time := a.end_time, end_time := b.start_time,
               priority := 1 } :: fill_gaps (b :: rest)
      else
        a :: fill_gaps (b :: rest)

/-- Modelled from the spec: the persistence self-healing pass — overlap
resolution first, then label correction, then gap filling. -/
def self_heal (ts : List PlanTask) : List PlanTask :=
  fill_gaps (correct_labels (fix_overlaps ts))

/-- C9: in the self-healing pass, for two tasks whose time windows intersect
the lower-priority task's start time is shifted to the end time of the
higher-priority task (the higher-priority task is untouched), the overlap
pass applies exactly this resolution to an adjacent pair, and self_heal runs
overlap resolution before label correction and gap filling. -/
theorem self_heal_spec (a b : PlanTask) (h : windowsIntersect a b) :
    (b.priority < a.priority →
        resolvePair a b = (a, { b with start_time := a.end_time })) ∧
    (a.priority < b.priority →
        resolvePair a b = ({ a with start_time := b.end_time }, b)) ∧
    fix_overlaps [a, b] = [(resolvePair a b).1, (resolvePair a b).2] ∧
    ∀ ts : List PlanTask,
      self_heal ts = fill_gaps (correct_labels (fix_overlaps ts)) := by
  have h' : a.start_time < b.end_time ∧ b.start_time < a.end_time := h
  refine ⟨?_, ?_, rfl, fun ts => rfl⟩
  · intro hba
    rw [resolvePair, if_pos h', if_pos (Nat.le_of_lt hba)]
  · intro hab
    rw [resolvePair, if_pos h', if_neg (Nat.not_le.mpr hab)]

/-- C9 witness: a priority-3 deep-work task 09:00–11:00 overlapping a
priority-2 gym task 10:00–12:00. -/
theorem self_heal_spec_witness :
    ((⟨"Gym", "health", 600, 720, 2⟩ : PlanTask).priority <
        (⟨"Deep Work", "work", 540, 660, 3⟩ : PlanTask).priority →
      resolvePair ⟨"Deep Work", "work", 540, 660, 3⟩ ⟨"Gym", "health", 600, 720, 2⟩ =
        (⟨"Deep Work", "work", 540, 660, 3⟩, ⟨"Gym", "health", 660, 720, 2⟩)) ∧
    ((⟨"Deep Work", "work", 540, 660, 3⟩ : PlanTask).priority <
        (⟨"Gym", "health", 600, 720, 2⟩ : PlanTask).priority →
      resolvePair ⟨"Deep Work", "work", 540, 660, 3⟩ ⟨"Gym", "health", 600, 720, 2⟩ =
        (⟨"Deep Work", "work", 720, 660, 3⟩, ⟨"Gym", "health", 600, 720, 2⟩)) ∧
    fix_overlaps [⟨"Deep Work", "work", 540, 660, 3⟩, ⟨"Gym", "health", 600, 720, 2⟩] =
      [(resolvePair ⟨"Deep Work", "work", 540, 660, 3⟩ ⟨"Gym", "health", 600, 720, 2⟩).1,
       (resolvePair ⟨"Deep Work", "work", 540, 660, 3⟩ ⟨"Gym", "health", 600, 720, 2⟩).2] ∧
    ∀ ts : List PlanTask,
      self_heal ts = fill_gaps (correct_labels (fix_overlaps ts)) :=
  self_heal_spec ⟨"Deep Work", "work", 540, 660, 3⟩ ⟨"Gym", "health", 600, 720, 2⟩
    (by constructor <;> norm_num)

end LifeOS
